import Mathlib

set_option maxRecDepth 10000

/- Shallow embedding of the core of the ai-pr-review-action repository:
   the segmentation utilities and review orchestration of src/src/index.js
   and the resilient HTTP client of src/unnamed/part_000 (whose fetchJson has
   the same control flow as the one in src/src/index.js, with an explicit
   retry observer instead of log warnings).

   Modelling conventions: JavaScript strings are Lean String values, absent
   values (undefined / null) are Option, HTTP statuses and character counts
   are Nat, parsed integers are Int.  JSON.parse is external, so the parsed
   value of a response body is supplied by the environment as an Option Json;
   the network itself is supplied as a function from the attempt number to
   the observable outcome of that attempt. -/

/-- JS falsiness for a string value: the empty string is falsy, every other
string is truthy. -/
def jsTruthyStr (s : String) : Bool := !(s == "")

/-- Number.parseInt(s, 10): skip leading whitespace, read an optional sign,
then the longest prefix of decimal digits; the result is NaN (here: none)
when no digit is found, and trailing garbage is ignored. -/
def parseIntB10 (s : String) : Option Int :=
  let cs := s.data.dropWhile Char.isWhitespace
  let signAndRest : Int × List Char :=
    match cs with
    | '-' :: t => (-1, t)
    | '+' :: t => (1, t)
    | _ => (1, cs)
  let digits := signAndRest.2.takeWhile Char.isDigit
  if digits.isEmpty then none
  else some (signAndRest.1 * Int.ofNat (digits.foldl (fun acc c => 10 * acc + (c.toNat - 48)) 0))

/-- clampInt from src/src/index.js lines 17-21.  The binders lo and hi stand
for the source parameters named min and max, and dflt for the one named def;
those names collide with Lean keywords or with the order functions used in
the body (Math.max(min, Math.min(max, n))). -/
def clampInt (val : Option String) (dflt lo hi : Int) : Int :=
  match parseIntB10 (val.getD "") with
  | none => dflt
  | some n => max lo (min hi n)

/-- CHARS_PER_TOKEN_ESTIMATE from src/src/index.js line 11. -/
def CHARS_PER_TOKEN_ESTIMATE : Nat := 4

/-- estimateTokens from src/src/index.js lines 27-29 (ceil division). -/
def estimateTokens (text : Option String) : Nat :=
  ((text.map String.length).getD 0 + (CHARS_PER_TOKEN_ESTIMATE - 1)) / CHARS_PER_TOKEN_ESTIMATE

/-- The slicing loop of chunkString: repeatedly take size characters from the
front.  The fuel argument bounds the recursion; it is instantiated with the
length of the list, which is enough iterations whenever 0 < size. -/
def chunkCore (size : Nat) : Nat → List Char → List (List Char)
  | 0, _ => []
  | _, [] => []
  | fuel + 1, l => l.take size :: chunkCore size fuel (l.drop size)

/-- chunkString from src/src/index.js lines 31-38: an absent or empty string,
or one no longer than size, is returned as the single element of the result
(unchanged, including the absent value itself); otherwise the string is cut
into consecutive slices of size characters. -/
def chunkString (str : Option String) (size : Nat) : List (Option String) :=
  match str with
  | none => [none]
  | some s =>
    if !jsTruthyStr s || decide (s.length ≤ size) then [some s]
    else (chunkCore size s.data.length s.data).map (fun c => some (String.mk c))

/-- Shape of a chunk list: every chunk except the last has exactly the
requested size, and the last has between 1 and size characters. -/
def chunksShape (size : Nat) : List (List Char) → Prop
  | [] => True
  | [c] => 1 ≤ c.length ∧ c.length ≤ size
  | c :: c2 :: rest => c.length = size ∧ chunksShape size (c2 :: rest)

/-- trimDiff from src/src/index.js lines 40-44. -/
def trimDiff (patch : Option String) (maxChars : Nat) : String :=
  match patch with
  | none => ""
  | some p =>
    if !jsTruthyStr p then ""
    else if decide (p.length ≤ maxChars) then p
    else p.take maxChars ++ "\n...[truncated]\n"

/-- JS String.prototype.trim: strip leading and trailing whitespace (the
core library trim is not kernel-reducible, so the JS primitive is modelled
directly on the character list). -/
def jsTrim (s : String) : String :=
  String.mk (((s.data.dropWhile Char.isWhitespace).reverse.dropWhile Char.isWhitespace).reverse)

/-- JS String.prototype.toLowerCase, modelled characterwise. -/
def jsToLower (s : String) : String := String.mk (s.data.map Char.toLower)

/-- Whether the pattern list is a prefix of the first list (JS startsWith on
the underlying characters). -/
def startsB : List Char → List Char → Bool
  | _, [] => true
  | [], _ :: _ => false
  | c :: cs, p :: ps => c == p && startsB cs ps

/-- JS String.prototype.startsWith. -/
def jsStartsWith (s pat : String) : Bool := startsB s.data pat.data

/-- Split a character list at every newline character; like JS split, the
result always has one more part than there are separators (so the empty
text gives one empty part). -/
def splitLines : List Char → List (List Char)
  | [] => [[]]
  | c :: rest =>
    if c = '\n' then [] :: splitLines rest
    else
      match splitLines rest with
      | [] => [[c]]
      | h :: t => (c :: h) :: t

/-- JS String.prototype.split with separator newline. -/
def jsSplitNewline (s : String) : List String := (splitLines s.data).map String.mk

/-- Whether the pattern occurs contiguously inside the list. -/
def hasInfixB (pat : List Char) : List Char → Bool
  | [] => startsB [] pat
  | c :: rest => startsB (c :: rest) pat || hasInfixB pat rest

/-- JS String.prototype.includes, on the underlying character lists. -/
def includesB (s pat : String) : Bool := hasInfixB pat.data s.data

/-- The fixed multilingual phrase list of isEmptyReview (src/src/index.js
lines 49-60). -/
def emptyPhrases : List String :=
  ["no issues", "looks good", "lgtm", "no problems", "no concerns",
   "sorun yok", "problem yok", "iyi görünüyor", "nothing to report",
   "no suggestions"]

/-- isEmptyReview from src/src/index.js lines 46-62.  JS trim and toLowerCase
are modelled by jsTrim and jsToLower. -/
def isEmptyReview (content : Option String) : Bool :=
  match content with
  | none => true
  | some c =>
    if !jsTruthyStr c || decide ((jsTrim c).length < 20) then true
    else emptyPhrases.any (fun phrase =>
      includesB (jsToLower c) phrase && decide ((jsTrim c).length < 100))

/-- The loop body test of getFirstHunkPosition: a line starting with + or -
that is not one of the two file header lines (three plus signs or three
minus signs). -/
def isHunkLine (l : String) : Bool :=
  (jsStartsWith l "+" || jsStartsWith l "-") &&
    !(jsStartsWith l "+++") && !(jsStartsWith l "---")

/-- The scanning loop of getFirstHunkPosition: i is the 0-based index of the
head line; falls through to 1 when no line matches. -/
def goLines : List String → Nat → Nat
  | [], _ => 1
  | l :: rest, i => if isHunkLine l then i + 1 else goLines rest (i + 1)

/-- getFirstHunkPosition from src/src/index.js lines 64-75 (split on the
newline character, scan, return the 1-based index of the first changed
non-header line, 1 when absent or not found). -/
def getFirstHunkPosition (patch : Option String) : Nat :=
  match patch with
  | none => 1
  | some p => if !jsTruthyStr p then 1 else goLines (jsSplitNewline p) 0

/-- MAX_RETRIES from src/unnamed/part_000 line 5 (same value in
src/src/index.js line 9). -/
def MAX_RETRIES : Nat := 3

/-- RETRY_DELAY_MS from src/unnamed/part_000 line 6 (same value in
src/src/index.js line 10); the base delay of the backoff formula. -/
def RETRY_DELAY_MS : Nat := 1000

/-- isRetryableError from src/src/index.js lines 97-101 (identical in
src/unnamed/part_000 lines 52-54). -/
def isRetryableError (status : Nat) : Bool :=
  status == 408 || status == 429 || (decide (500 ≤ status) && decide (status < 600))

/-- calculateBackoff from src/unnamed/part_000 lines 62-64; every call site
passes the default base delay RETRY_DELAY_MS (src/src/index.js lines 103-105
fixes the base to that constant). -/
def calculateBackoff (attempt : Nat) (baseDelay : Nat) : Nat :=
  baseDelay * 2 ^ (attempt - 1)

mutual
/-- A parsed JSON value, as produced by the external JSON.parse. -/
inductive Json where
  | null : Json
  | jbool : Bool → Json
  | jnum : Int → Json
  | jstr : String → Json
  | jarr : JsonList → Json
  | jobj : JsonFields → Json
inductive JsonList where
  | nil : JsonList
  | cons : Json → JsonList → JsonList
inductive JsonFields where
  | nil : JsonFields
  | cons : String → Json → JsonFields → JsonFields
end

/-- Field lookup in a JSON object. -/
def fieldsGet : JsonFields → String → Option Json
  | .nil, _ => none
  | .cons k v tl, key => if k = key then some v else fieldsGet tl key

/-- JS optional property access j?.[key] on a parsed JSON value: only objects
have the property, every other value yields undefined. -/
def jsonGet (j : Json) (key : String) : Option Json :=
  match j with
  | .jobj fs => fieldsGet fs key
  | _ => none

/-- JS truthiness of a parsed JSON value. -/
def jsTruthy : Json → Bool
  | .null => false
  | .jbool b => b
  | .jnum n => !(n == 0)
  | .jstr s => !(s == "")
  | .jarr _ => true
  | .jobj _ => true

mutual
/-- JS String(v) conversion of a parsed JSON value, as applied by
new Error(msg) to a non-string message. -/
def Json.toJsString : Json → String
  | .null => "null"
  | .jbool b => if b then "true" else "false"
  | .jnum n => toString n
  | .jstr s => s
  | .jarr xs => jsonListToJsString xs
  | .jobj _ => "[object Object]"
/-- JS Array.prototype.toString: element strings joined with commas, null
elements rendered as the empty string. -/
def jsonListToJsString : JsonList → String
  | .nil => ""
  | .cons hd tl =>
    let hdStr :=
      match hd with
      | .null => ""
      | j => Json.toJsString j
    match tl with
    | .nil => hdStr
    | .cons _ _ => hdStr ++ "," ++ jsonListToJsString tl
end

/-- A JS Error value as thrown by the HTTP client: its constructor name, its
message, and the optional status / body fields attached by the client. -/
structure JsErr where
  name : String
  message : String
  status : Option Nat
  body : Option String

/-- JS truthiness of err.status as tested by !err.status: an absent status
and the number 0 are falsy. -/
def statusFalsy : Option Nat → Bool
  | none => true
  | some s => s == 0

/-- createHttpError from src/src/index.js lines 89-95 (identical in
src/unnamed/part_000 lines 37-43): the message is the first truthy value of
json?.error?.message, json?.error, the raw response text, and the
synthesized HTTP-status string; the status and body are attached. -/
def createHttpError (json : Option Json) (text : String) (status : Nat) : JsErr :=
  let errField : Option Json := json.bind (fun j => jsonGet j "error")
  let msgField : Option Json := errField.bind (fun j => jsonGet j "message")
  let pick : Option Json → Option Json := fun o =>
    match o with
    | some v => if jsTruthy v then some v else none
    | none => none
  let msg : String :=
    match pick msgField with
    | some v => v.toJsString
    | none =>
      match pick errField with
      | some v => v.toJsString
      | none => if jsTruthyStr text then text else "HTTP " ++ toString status
  ⟨"Error", msg, some status, some text⟩

/-- The synthetic timeout error built in the catch block of fetchJson when
the abort deadline fired (status 408, no body). -/
def timeoutError (timeoutMs : Nat) : JsErr :=
  ⟨"Error", "Request timed out after " ++ toString timeoutMs ++ "ms", some 408, none⟩

/-- The observable result of one fetch attempt, supplied by the environment:
either a completed HTTP response (res.ok, res.status, the body text, and the
parsed JSON produced by the external JSON.parse — none when parsing failed)
or a rejected promise carrying a JS error (an abort, or a network error with
no status). -/
inductive Outcome where
  | response : Bool → Nat → String → Option Json → Outcome
  | reject : JsErr → Outcome

/-- The observable side effects of the retry loop: retry-observer
notifications carrying status, attempt, delay and the timeout / network
flags (src/unnamed/part_000 lines 100, 111, 119), and backoff sleeps. -/
inductive Event where
  | notify : Nat → Nat → Nat → Bool → Bool → Event
  | sleep : Nat → Event

/-- How one loop iteration ends: return a value, throw an error out of the
loop, or continue to the next attempt after recording lastError and emitting
the given events. -/
inductive StepOut where
  | ret : Option Json → StepOut
  | done : JsErr → StepOut
  | next : JsErr → List Event → StepOut

/-- The catch block of fetchJson (src/unnamed/part_000 lines 104-126): an
AbortError becomes a synthetic 408 timeout error that, when attempts remain,
notifies the observer with delay 0 and continues with NO sleep; an error
without a truthy status (a network error) retries with exponential backoff
while attempts remain; everything else is rethrown. -/
def fetchCatch (e : JsErr) (attempt maxRetries timeoutMs : Nat) : StepOut :=
  if e.name == "AbortError" then
    if decide (attempt ≥ maxRetries) then .done (timeoutError timeoutMs)
    else .next (timeoutError timeoutMs) [.notify 408 attempt 0 true false]
  else if statusFalsy e.status && decide (attempt < maxRetries) then
    .next e [.notify 0 attempt (calculateBackoff attempt RETRY_DELAY_MS) false true,
             .sleep (calculateBackoff attempt RETRY_DELAY_MS)]
  else .done e

/-- One iteration of the try block of fetchJson (src/unnamed/part_000 lines
84-102): a successful response returns its parsed body at once; a failed
response is classified, thrown into the catch block when non-retryable or
when this was the last attempt, and otherwise notifies the observer, sleeps
for the backoff, and continues; a rejected promise goes to the catch block
directly. -/
def fetchStep (o : Outcome) (attempt maxRetries timeoutMs : Nat) : StepOut :=
  match o with
  | .response ok status text json =>
    if ok then .ret json
    else
      let err := createHttpError json text status
      if !isRetryableError status || decide (attempt ≥ maxRetries) then
        fetchCatch err attempt maxRetries timeoutMs
      else
        .next err [.notify status attempt (calculateBackoff attempt RETRY_DELAY_MS) false false,
                   .sleep (calculateBackoff attempt RETRY_DELAY_MS)]
  | .reject e => fetchCatch e attempt maxRetries timeoutMs

/-- The attempt loop of fetchJson.  fuel counts the remaining iterations of
the for loop (it equals maxRetries + 1 - attempt at every reachable call,
so fuel 0 is exactly the exit condition attempt > maxRetries), and the loop
exit throws the accumulated lastError, which starts uninitialized. -/
def fetchLoop (behavior : Nat → Outcome) (maxRetries timeoutMs : Nat) :
    Nat → Nat → Option JsErr → List Event →
    Except (Option JsErr) (Option Json) × List Event
  | 0, _, lastError, acc => (.error lastError, acc)
  | fuel + 1, attempt, _, acc =>
    match fetchStep (behavior attempt) attempt maxRetries timeoutMs with
    | .ret j => (.ok j, acc)
    | .done e => (.error (some e), acc)
    | .next le evs =>
      fetchLoop behavior maxRetries timeoutMs fuel (attempt + 1) (some le) (acc ++ evs)

/-- fetchJson from src/unnamed/part_000 lines 77-129 (the same control flow
as src/src/index.js lines 107-159, where log warnings stand in for the
observer): attempts run from 1 to maxRetries with lastError starting
uninitialized (none); the result pairs the returned value or thrown error
with the emitted event trace. -/
def fetchJson (behavior : Nat → Outcome) (maxRetries timeoutMs : Nat) :
    Except (Option JsErr) (Option Json) × List Event :=
  fetchLoop behavior maxRetries timeoutMs maxRetries 1 none []

/-- One changed file of the pull request as listed by the platform. -/
structure ChangedFile where
  filename : String
  patch : Option String
  additions : Nat
  deletions : Nat

/-- The reviewability test of src/src/index.js line 393: f.patch is truthy
and has positive length. -/
def jsHasPatch (f : ChangedFile) : Bool :=
  match f.patch with
  | none => false
  | some p => jsTruthyStr p && decide (0 < p.length)

/-- Lines 392-394 of src/src/index.js: keep the files that have a patch
FIRST, then slice the result to at most maxFiles elements. -/
def selectReviewable (allFiles : List ChangedFile) (maxFiles : Nat) : List ChangedFile :=
  (allFiles.filter jsHasPatch).take maxFiles

/-- The summary-mode diff assembly loop of src/src/index.js lines 444-457:
walks the reviewable files keeping the diffParts list and the running
totalChars counter; when a file diff would push the counter past maxChars it
appends the truncation marker (whose own length is not counted) and stops.
allLen is reviewableFiles.length, used by the marker text. -/
def buildDiffGo (allLen maxDiffCharsPerFile maxChars : Nat) :
    List ChangedFile → List String → Nat → List String × Nat
  | [], parts, total => (parts, total)
  | f :: rest, parts, total =>
    let trimmedPatch := trimDiff f.patch maxDiffCharsPerFile
    let fileDiff := "--- a/" ++ f.filename ++ "\n+++ b/" ++ f.filename ++ "\n" ++ trimmedPatch ++ "\n"
    if decide (maxChars < total + fileDiff.length) then
      (parts ++ ["...[" ++ toString (allLen - parts.length) ++ " more files truncated]\n"], total)
    else
      buildDiffGo allLen maxDiffCharsPerFile maxChars rest (parts ++ [fileDiff]) (total + fileDiff.length)

/-- The diffParts list and final totalChars of summary mode, starting from
the empty list and counter 0. -/
def summaryDiffParts (files : List ChangedFile) (maxDiffCharsPerFile maxChars : Nat) :
    List String × Nat :=
  buildDiffGo files.length maxDiffCharsPerFile maxChars files [] 0

/-- diffText of src/src/index.js line 458: diffParts.join with a newline
separator. -/
def summaryDiffText (files : List ChangedFile) (maxDiffCharsPerFile maxChars : Nat) : String :=
  String.intercalate "\n" (summaryDiffParts files maxDiffCharsPerFile maxChars).1

/-- A 4983-character patch body; a file diff built from it is exactly 5000
characters (17 characters of header lines and final newline). -/
def cexPatch : String := String.mk (List.replicate 4983 'a')

/-- A reviewable file whose file diff measures exactly 5000 characters. -/
def cexFile : ChangedFile := ⟨"f", some cexPatch, 1, 0⟩

/-- Two reviewable files whose file diffs each measure exactly 5000
characters, so both are admitted under a 10000-character budget, while the
joined text also contains the separating newline. -/
def cexFiles : List ChangedFile := [cexFile, cexFile]

/-- A network behavior that fails with HTTP 500 on attempts 1-4 and succeeds
on attempt 5 (body "null", which JSON.parse turns into null). -/
def behaviorB5 : Nat → Outcome := fun attempt =>
  if attempt < 5 then .response false 500 "" none else .response true 200 "null" none

/-- A network behavior that always returns HTTP 404 with a plain body. -/
def behaviorC1 : Nat → Outcome := fun _ => .response false 404 "Not Found" none

/-- A network behavior whose every attempt is aborted by the deadline. -/
def behaviorC4t : Nat → Outcome := fun _ => .reject ⟨"AbortError", "Aborted", none, none⟩

/-- A network behavior whose every attempt fails at connection level (a JS
TypeError with no status). -/
def behaviorC4n : Nat → Outcome := fun _ => .reject ⟨"TypeError", "fetch failed", none, none⟩

/-- A network behavior that always returns HTTP 503. -/
def behaviorC4h : Nat → Outcome := fun _ => .response false 503 "busy" none

/-- A 100-character review text that contains the phrase looks good. -/
def longReview : String := "looks good" ++ String.mk (List.replicate 90 'x')

/-- The concrete patch of the C9 example: the first changed non-header line
is its 4th physical line. -/
def examplePatch : String := "@@ -1,3 +1,3 @@\n ctx\n ctx\n+added"

/-- 30 changed files of which exactly 5 lack diff content. -/
def witnessFiles : List ChangedFile :=
  List.replicate 12 (⟨"a.js", some "+x", 1, 0⟩ : ChangedFile) ++
  List.replicate 5 (⟨"bin.png", none, 0, 0⟩ : ChangedFile) ++
  List.replicate 13 (⟨"b.js", some "-y", 0, 1⟩ : ChangedFile)

/- ========================================================================
   Helper lemmas
   ======================================================================== -/

theorem createHttpError_fields (json : Option Json) (text : String) (status : Nat) :
    (createHttpError json text status).name = "Error"
    ∧ (createHttpError json text status).status = some status
    ∧ (createHttpError json text status).body = some text :=
  ⟨rfl, rfl, rfl⟩

theorem fetchCatch_rethrow (e : JsErr) (attempt maxRetries timeoutMs : Nat)
    (hn : e.name ≠ "AbortError") (hs : statusFalsy e.status = false) :
    fetchCatch e attempt maxRetries timeoutMs = .done e := by
  have hb : (e.name == "AbortError") = false := beq_eq_false_iff_ne.mpr hn
  simp [fetchCatch, hb, hs]

theorem fetchCatch_timeout_cont (e : JsErr) (attempt maxRetries timeoutMs : Nat)
    (hn : e.name = "AbortError") (hlt : attempt < maxRetries) :
    fetchCatch e attempt maxRetries timeoutMs
      = .next (timeoutError timeoutMs) [.notify 408 attempt 0 true false] := by
  have h1 : (decide (attempt ≥ maxRetries)) = false := decide_eq_false (by omega)
  simp [fetchCatch, hn, h1]

theorem fetchCatch_network_cont (e : JsErr) (attempt maxRetries timeoutMs : Nat)
    (hn : e.name ≠ "AbortError") (hs : statusFalsy e.status = true)
    (hlt : attempt < maxRetries) :
    fetchCatch e attempt maxRetries timeoutMs
      = .next e [.notify 0 attempt (calculateBackoff attempt RETRY_DELAY_MS) false true,
                 .sleep (calculateBackoff attempt RETRY_DELAY_MS)] := by
  have hb : (e.name == "AbortError") = false := beq_eq_false_iff_ne.mpr hn
  have h1 : (decide (attempt < maxRetries)) = true := decide_eq_true hlt
  simp [fetchCatch, hb, hs, h1]

theorem fetchStep_nonretryable (attempt maxRetries timeoutMs status : Nat)
    (text : String) (json : Option Json)
    (hr : isRetryableError status = false) (h0 : status ≠ 0) :
    fetchStep (.response false status text json) attempt maxRetries timeoutMs
      = .done (createHttpError json text status) := by
  have hs : statusFalsy (createHttpError json text status).status = false := by
    show statusFalsy (some status) = false
    simp [statusFalsy, h0]
  have hstep : fetchStep (.response false status text json) attempt maxRetries timeoutMs
      = fetchCatch (createHttpError json text status) attempt maxRetries timeoutMs := by
    simp [fetchStep, hr]
  rw [hstep, fetchCatch_rethrow _ _ _ _ (by simp [createHttpError]) hs]

theorem fetchStep_retryable_cont (attempt maxRetries timeoutMs status : Nat)
    (text : String) (json : Option Json)
    (hr : isRetryableError status = true) (hlt : attempt < maxRetries) :
    fetchStep (.response false status text json) attempt maxRetries timeoutMs
      = .next (createHttpError json text status)
          [.notify status attempt (calculateBackoff attempt RETRY_DELAY_MS) false false,
           .sleep (calculateBackoff attempt RETRY_DELAY_MS)] := by
  have h1 : (decide (attempt ≥ maxRetries)) = false := decide_eq_false (by omega)
  simp [fetchStep, hr, h1]

theorem fetchLoop_succ (behavior : Nat → Outcome) (maxRetries timeoutMs fuel attempt : Nat)
    (le : Option JsErr) (acc : List Event) :
    fetchLoop behavior maxRetries timeoutMs (fuel + 1) attempt le acc =
      match fetchStep (behavior attempt) attempt maxRetries timeoutMs with
      | .ret j => (.ok j, acc)
      | .done e => (.error (some e), acc)
      | .next l evs =>
        fetchLoop behavior maxRetries timeoutMs fuel (attempt + 1) (some l) (acc ++ evs) :=
  rfl

theorem fetchLoop_ne_error_none (behavior : Nat → Outcome) (maxRetries timeoutMs : Nat) :
    ∀ (fuel attempt : Nat) (le : Option JsErr) (acc : List Event),
      1 ≤ fuel ∨ le ≠ none →
      (fetchLoop behavior maxRetries timeoutMs fuel attempt le acc).1 ≠ Except.error none := by
  intro fuel
  induction fuel with
  | zero =>
    intro attempt le acc h
    rcases h with h | h
    · omega
    · simp only [fetchLoop]
      intro hc
      exact h (by injection hc)
  | succ n ih =>
    intro attempt le acc _
    rw [fetchLoop_succ]
    cases fetchStep (behavior attempt) attempt maxRetries timeoutMs with
    | ret j => simp
    | done e => simp
    | next l evs => exact ih (attempt + 1) (some l) (acc ++ evs) (Or.inr (by simp))

theorem fetchLoop_nonretryable_throw (behavior : Nat → Outcome)
    (maxRetries timeoutMs fuel attempt : Nat) (le : Option JsErr) (acc : List Event)
    (status : Nat) (text : String) (json : Option Json)
    (hb : behavior attempt = .response false status text json)
    (hr : isRetryableError status = false) (h0 : status ≠ 0) :
    fetchLoop behavior maxRetries timeoutMs (fuel + 1) attempt le acc
      = (.error (some (createHttpError json text status)), acc) := by
  rw [fetchLoop_succ, hb,
      fetchStep_nonretryable attempt maxRetries timeoutMs status text json hr h0]

theorem filter_len_countP (l : List ChangedFile) :
    (l.filter jsHasPatch).length + l.countP (fun f => !jsHasPatch f) = l.length := by
  induction l with
  | nil => rfl
  | cons hd tl ih =>
    by_cases h : jsHasPatch hd = true
    · simp [List.filter_cons, List.countP_cons, h]
      omega
    · have h' : jsHasPatch hd = false := by revert h; cases jsHasPatch hd <;> simp
      simp [List.filter_cons, List.countP_cons, h']
      omega

theorem buildDiffGo_total_le (allLen maxDiffCharsPerFile maxChars : Nat) :
    ∀ (rest : List ChangedFile) (parts : List String) (total : Nat),
      total ≤ maxChars →
      (buildDiffGo allLen maxDiffCharsPerFile maxChars rest parts total).2 ≤ maxChars := by
  intro rest
  induction rest with
  | nil => intro parts total h; simpa [buildDiffGo] using h
  | cons f tl ih =>
    intro parts total h
    simp only [buildDiffGo]
    split
    · exact h
    · rename_i hcond
      apply ih
      have hle := of_decide_eq_false (Bool.of_not_eq_true hcond)
      omega

theorem chunkCore_nil_input (size fuel : Nat) : chunkCore size fuel [] = [] := by
  cases fuel <;> rfl

theorem chunkCore_ne_nil (size fuel : Nat) (l : List Char)
    (hf : 1 ≤ fuel) (hl : l ≠ []) : chunkCore size fuel l ≠ [] := by
  cases fuel with
  | zero => omega
  | succ n =>
    cases l with
    | nil => exact absurd rfl hl
    | cons c cs => simp [chunkCore]

theorem chunkCore_flatten (size : Nat) (hs : 1 ≤ size) :
    ∀ (fuel : Nat) (l : List Char), l.length ≤ fuel →
      (chunkCore size fuel l).flatten = l := by
  intro fuel
  induction fuel with
  | zero =>
    intro l hl
    rw [List.eq_nil_of_length_eq_zero (Nat.le_zero.mp hl)]
    rfl
  | succ n ih =>
    intro l hl
    cases l with
    | nil => rfl
    | cons c cs =>
      show ((c :: cs).take size :: chunkCore size n ((c :: cs).drop size)).flatten = c :: cs
      rw [List.flatten_cons, ih ((c :: cs).drop size) (by rw [List.length_drop]; simp [List.length_cons] at hl ⊢; omega)]
      exact List.take_append_drop size (c :: cs)

theorem chunkCore_shape (size : Nat) (hs : 1 ≤ size) :
    ∀ (fuel : Nat) (l : List Char), l ≠ [] → l.length ≤ fuel →
      chunksShape size (chunkCore size fuel l) := by
  intro fuel
  induction fuel with
  | zero =>
    intro l hne hl
    exact absurd (List.eq_nil_of_length_eq_zero (Nat.le_zero.mp hl)) hne
  | succ n ih =>
    intro l hne hl
    by_cases hle : l.length ≤ size
    · have hdrop : l.drop size = [] := List.drop_eq_nil_of_le hle
      have htake : l.take size = l := List.take_of_length_le hle
      cases l with
      | nil => exact absurd rfl hne
      | cons c cs =>
        show chunksShape size ((c :: cs).take size :: chunkCore size n ((c :: cs).drop size))
        rw [hdrop, chunkCore_nil_input, htake]
        exact ⟨by simp, hle⟩
    · push_neg at hle
      cases l with
      | nil => exact absurd rfl hne
      | cons c cs =>
        have hdlen : ((c :: cs).drop size).length = (c :: cs).length - size :=
          List.length_drop size (c :: cs)
        have hdne : (c :: cs).drop size ≠ [] := by
          intro h0
          have h1 : ((c :: cs).drop size).length = 0 := by rw [h0]; rfl
          rw [hdlen] at h1
          omega
        have hllen : size < (c :: cs).length := hle
        have hl2 : (c :: cs).length ≤ n + 1 := hl
        have hdle : ((c :: cs).drop size).length ≤ n := by omega
        have hn1 : 1 ≤ n := by omega
        have hrec := ih ((c :: cs).drop size) hdne hdle
        obtain ⟨d, ds, hds⟩ : ∃ d ds, chunkCore size n ((c :: cs).drop size) = d :: ds := by
          cases hh : chunkCore size n ((c :: cs).drop size) with
          | nil => exact absurd hh (chunkCore_ne_nil size n _ hn1 hdne)
          | cons d ds => exact ⟨d, ds, rfl⟩
        show chunksShape size ((c :: cs).take size :: chunkCore size n ((c :: cs).drop size))
        rw [hds]
        refine ⟨?_, ?_⟩
        · rw [List.length_take]
          omega
        · rw [← hds]
          exact hrec

theorem goLines_not_found :
    ∀ (lines : List String), (∀ l ∈ lines, isHunkLine l = false) →
      ∀ i, goLines lines i = 1 := by
  intro lines
  induction lines with
  | nil => intro _ _; rfl
  | cons hd tl ih =>
    intro h i
    have hh : isHunkLine hd = false := h hd (List.mem_cons_self hd tl)
    simp only [goLines, hh, Bool.false_eq_true, if_false]
    exact ih (fun l hl => h l (List.mem_cons_of_mem hd hl)) (i + 1)

theorem goLines_found :
    ∀ (lines : List String) (k : Nat) (hk : k < lines.length),
      isHunkLine (lines.get ⟨k, hk⟩) = true →
      (∀ j (hj : j < k), isHunkLine (lines.get ⟨j, Nat.lt_trans hj hk⟩) = false) →
      ∀ i, goLines lines i = i + k + 1 := by
  intro lines
  induction lines with
  | nil => intro k hk; exact absurd hk (by simp)
  | cons hd tl ih =>
    intro k hk hfound hleast i
    cases k with
    | zero =>
      have hh : isHunkLine hd = true := hfound
      simp [goLines, hh]
    | succ k2 =>
      have hh : isHunkLine hd = false := hleast 0 (Nat.succ_pos k2)
      simp only [goLines, hh, Bool.false_eq_true, if_false]
      have hk2 : k2 < tl.length := by
        have := hk
        simp only [List.length_cons] at this
        omega
      have hfound2 : isHunkLine (tl.get ⟨k2, hk2⟩) = true := by
        simpa using hfound
      have hleast2 : ∀ j (hj : j < k2), isHunkLine (tl.get ⟨j, Nat.lt_trans hj hk2⟩) = false := by
        intro j hj
        have := hleast (j + 1) (by omega)
        simpa using this
      have := ih k2 hk2 hfound2 hleast2 (i + 1)
      rw [this]
      omega

/- ========================================================================
   Claims
   ======================================================================== -/

/-- C1: an HTTP failure status is retryable iff it is 408, 429 or 5xx, and a
non-success response with any other status makes fetchJson throw the
classified error on the very attempt that observed it, regardless of the
remaining attempts (stated both for an arbitrary loop state and for a whole
run that fails this way on attempt 1). -/
theorem retryable_classification_and_immediate_throw :
    (∀ status : Nat, isRetryableError status = true ↔
        (status = 408 ∨ status = 429 ∨ (500 ≤ status ∧ status < 600)))
    ∧ (∀ (behavior : Nat → Outcome) (maxRetries timeoutMs fuel attempt : Nat)
        (le : Option JsErr) (acc : List Event) (status : Nat) (text : String)
        (json : Option Json),
        behavior attempt = .response false status text json →
        isRetryableError status = false → status ≠ 0 →
        fetchLoop behavior maxRetries timeoutMs (fuel + 1) attempt le acc
          = (.error (some (createHttpError json text status)), acc))
    ∧ (∀ (behavior : Nat → Outcome) (maxRetries timeoutMs status : Nat)
        (text : String) (json : Option Json),
        1 ≤ maxRetries →
        behavior 1 = .response false status text json →
        isRetryableError status = false → status ≠ 0 →
        fetchJson behavior maxRetries timeoutMs
          = (.error (some (createHttpError json text status)), [])) := by
  refine ⟨?_, ?_, ?_⟩
  · intro status
    simp only [isRetryableError, Bool.or_eq_true, Bool.and_eq_true, beq_iff_eq,
      decide_eq_true_eq]
    omega
  · intro behavior maxRetries timeoutMs fuel attempt le acc status text json hb hr h0
    exact fetchLoop_nonretryable_throw behavior maxRetries timeoutMs fuel attempt le acc
      status text json hb hr h0
  · intro behavior maxRetries timeoutMs status text json hmr hb hr h0
    obtain ⟨k, rfl⟩ : ∃ k, maxRetries = k + 1 := ⟨maxRetries - 1, by omega⟩
    exact fetchLoop_nonretryable_throw behavior (k + 1) timeoutMs k 1 none []
      status text json hb hr h0

/-- C1 witness: a 404 response is thrown at once with an empty event trace,
even though two more attempts remained. -/
theorem retryable_classification_and_immediate_throw_witness :
    fetchJson behaviorC1 3 60000
      = (.error (some (createHttpError none "Not Found" 404)), []) :=
  retryable_classification_and_immediate_throw.2.2 behaviorC1 3 60000 404 "Not Found"
    none (by omega) rfl (by decide) (by decide)

/-- C2: reviewable-file selection keeps only files with a nonempty patch (so
the exclusion happens before the max-files slice), and a run with 30 changed
files, 5 of them without diff content, and a limit of 25 reviews exactly 25
files. -/
theorem selectReviewable_filter_before_slice :
    (∀ (files : List ChangedFile) (maxFiles : Nat) (f : ChangedFile),
        f ∈ selectReviewable files maxFiles → jsHasPatch f = true)
    ∧ (∀ files : List ChangedFile,
        files.length = 30 →
        files.countP (fun f => !jsHasPatch f) = 5 →
        (selectReviewable files 25).length = 25) := by
  constructor
  · intro files maxFiles f hf
    have hmem : f ∈ files.filter jsHasPatch := List.take_subset _ _ hf
    exact (List.mem_filter.mp hmem).2
  · intro files h30 h5
    have hlc := filter_len_countP files
    have hfl : (files.filter jsHasPatch).length = 25 := by omega
    simp [selectReviewable, List.length_take, hfl]

/-- C2 witness: a concrete list of 30 files with exactly 5 lacking diff
content yields exactly 25 reviewable files. -/
theorem selectReviewable_filter_before_slice_witness :
    witnessFiles.length = 30
    ∧ witnessFiles.countP (fun f => !jsHasPatch f) = 5
    ∧ (selectReviewable witnessFiles 25).length = 25 :=
  ⟨by decide, by decide,
   selectReviewable_filter_before_slice.2 witnessFiles (by decide) (by decide)⟩

/-- C3 (amended): the running totalChars counter of the summary-mode diff
assembly — the sum of the lengths of the per-file diff segments admitted
into diffParts — never exceeds the global character budget maxChars; the
joined diffText itself may still exceed maxChars by the newline separators
of the join and by the uncounted truncation marker (see the counterexample
theorem). -/
theorem summary_running_total_bounded :
    ∀ (files : List ChangedFile) (maxDiffCharsPerFile maxChars : Nat),
      (summaryDiffParts files maxDiffCharsPerFile maxChars).2 ≤ maxChars :=
  fun files maxDiffCharsPerFile maxChars =>
    buildDiffGo_total_le files.length maxDiffCharsPerFile maxChars files [] 0
      (Nat.zero_le maxChars)

/-- C3 counterexample: with the in-range budget maxChars = 10000 and the
default per-file cap 50000, two files whose file diffs measure exactly 5000
characters each are both admitted (running total exactly 10000), yet the
joined diffText is 10001 characters long because the join inserts an
uncounted newline separator — so the combined diff text of the single
generation request exceeds maxChars. -/
theorem summary_text_exceeds_budget :
    (summaryDiffParts cexFiles 50000 10000).2 = 10000
    ∧ 10000 < (summaryDiffText cexFiles 50000 10000).length := by
  have hplen : cexPatch.length = 4983 := by
    show (List.replicate 4983 'a').length = 4983
    exact List.length_replicate 4983 'a'
  have hne : cexPatch ≠ "" := by
    intro hq
    have h0 : cexPatch.length = 0 := by rw [hq]; rfl
    omega
  have hjs : jsTruthyStr cexPatch = true := by
    simp [jsTruthyStr, beq_eq_false_iff_ne.mpr hne]
  have htrim : trimDiff (some cexPatch) 50000 = cexPatch := by
    have hdec : (decide (cexPatch.length ≤ 50000)) = true := decide_eq_true (by omega)
    simp [trimDiff, hjs, hdec]
  have hfd : ("--- a/" ++ "f" ++ "\n+++ b/" ++ "f" ++ "\n" ++ cexPatch ++ "\n").length = 5000 := by
    have l1 : ("--- a/" : String).length = 6 := rfl
    have l2 : ("f" : String).length = 1 := rfl
    have l3 : ("\n+++ b/" : String).length = 7 := rfl
    have l4 : ("\n" : String).length = 1 := rfl
    simp only [String.length_append, l1, l2, l3, l4, hplen]
  have hone : ∀ (rest : List ChangedFile) (parts : List String) (total : Nat),
      total + 5000 ≤ 10000 →
      buildDiffGo 2 50000 10000 (cexFile :: rest) parts total
        = buildDiffGo 2 50000 10000 rest
            (parts ++ ["--- a/" ++ "f" ++ "\n+++ b/" ++ "f" ++ "\n" ++ cexPatch ++ "\n"])
            (total + 5000) := by
    intro rest parts total h
    simp only [buildDiffGo, cexFile]
    simp only [htrim, hfd]
    rw [show (decide (10000 < total + 5000)) = false from decide_eq_false (by omega)]
    exact if_neg Bool.false_ne_true
  have e1 := hone [cexFile] [] 0 (by omega)
  have e2 := hone []
    ["--- a/" ++ "f" ++ "\n+++ b/" ++ "f" ++ "\n" ++ cexPatch ++ "\n"]
    (0 + 5000) (by omega)
  have e3 : buildDiffGo 2 50000 10000 []
      (["--- a/" ++ "f" ++ "\n+++ b/" ++ "f" ++ "\n" ++ cexPatch ++ "\n"]
        ++ ["--- a/" ++ "f" ++ "\n+++ b/" ++ "f" ++ "\n" ++ cexPatch ++ "\n"])
      ((0 + 5000) + 5000)
      = ((["--- a/" ++ "f" ++ "\n+++ b/" ++ "f" ++ "\n" ++ cexPatch ++ "\n"]
        ++ ["--- a/" ++ "f" ++ "\n+++ b/" ++ "f" ++ "\n" ++ cexPatch ++ "\n"]),
        (0 + 5000) + 5000) := by
    simp only [buildDiffGo]
  have hparts : summaryDiffParts cexFiles 50000 10000
      = ([ "--- a/" ++ "f" ++ "\n+++ b/" ++ "f" ++ "\n" ++ cexPatch ++ "\n",
           "--- a/" ++ "f" ++ "\n+++ b/" ++ "f" ++ "\n" ++ cexPatch ++ "\n"], 10000) := by
    show buildDiffGo 2 50000 10000 (cexFile :: [cexFile]) [] 0 = _
    simp only [e1, List.nil_append]
    simp only [e2]
    simp only [e3]
    simp only [List.singleton_append, Prod.mk.injEq]
  constructor
  · simp only [hparts]
  · show 10000 < (String.intercalate "\n" (summaryDiffParts cexFiles 50000 10000).1).length
    simp only [hparts]
    have hjoin : String.intercalate "\n"
        [ "--- a/" ++ "f" ++ "\n+++ b/" ++ "f" ++ "\n" ++ cexPatch ++ "\n",
          "--- a/" ++ "f" ++ "\n+++ b/" ++ "f" ++ "\n" ++ cexPatch ++ "\n"]
        = ("--- a/" ++ "f" ++ "\n+++ b/" ++ "f" ++ "\n" ++ cexPatch ++ "\n") ++ "\n"
          ++ ("--- a/" ++ "f" ++ "\n+++ b/" ++ "f" ++ "\n" ++ cexPatch ++ "\n") := rfl
    have l4 : ("\n" : String).length = 1 := rfl
    simp only [hjoin, String.length_append, l4]
    simp only [String.length_append] at hfd
    omega

/-- C4: when an attempt is aborted by the deadline and attempts remain, the
loop notifies the observer with delay 0 and moves straight to the next
attempt with NO sleep event; when a retryable HTTP status or a network-level
failure (no status) is observed with attempts remaining, the loop notifies
with the exponential backoff delay and emits the corresponding sleep event
before the next attempt. -/
theorem timeout_retry_skips_backoff_sleep :
    (∀ (behavior : Nat → Outcome) (maxRetries timeoutMs fuel attempt : Nat)
        (le : Option JsErr) (acc : List Event) (e : JsErr),
        behavior attempt = .reject e → e.name = "AbortError" → attempt < maxRetries →
        fetchLoop behavior maxRetries timeoutMs (fuel + 1) attempt le acc
          = fetchLoop behavior maxRetries timeoutMs fuel (attempt + 1)
              (some (timeoutError timeoutMs)) (acc ++ [.notify 408 attempt 0 true false]))
    ∧ (∀ (behavior : Nat → Outcome) (maxRetries timeoutMs fuel attempt : Nat)
        (le : Option JsErr) (acc : List Event) (status : Nat) (text : String)
        (json : Option Json),
        behavior attempt = .response false status text json →
        isRetryableError status = true → attempt < maxRetries →
        fetchLoop behavior maxRetries timeoutMs (fuel + 1) attempt le acc
          = fetchLoop behavior maxRetries timeoutMs fuel (attempt + 1)
              (some (createHttpError json text status))
              (acc ++ [.notify status attempt (calculateBackoff attempt RETRY_DELAY_MS) false false,
                       .sleep (calculateBackoff attempt RETRY_DELAY_MS)]))
    ∧ (∀ (behavior : Nat → Outcome) (maxRetries timeoutMs fuel attempt : Nat)
        (le : Option JsErr) (acc : List Event) (e : JsErr),
        behavior attempt = .reject e → e.name ≠ "AbortError" → e.status = none →
        attempt < maxRetries →
        fetchLoop behavior maxRetries timeoutMs (fuel + 1) attempt le acc
          = fetchLoop behavior maxRetries timeoutMs fuel (attempt + 1) (some e)
              (acc ++ [.notify 0 attempt (calculateBackoff attempt RETRY_DELAY_MS) false true,
                       .sleep (calculateBackoff attempt RETRY_DELAY_MS)])) := by
  refine ⟨?_, ?_, ?_⟩
  · intro behavior maxRetries timeoutMs fuel attempt le acc e hb hn hlt
    rw [fetchLoop_succ, hb]
    simp only [fetchStep]
    rw [fetchCatch_timeout_cont e attempt maxRetries timeoutMs hn hlt]
  · intro behavior maxRetries timeoutMs fuel attempt le acc status text json hb hr hlt
    rw [fetchLoop_succ, hb,
        fetchStep_retryable_cont attempt maxRetries timeoutMs status text json hr hlt]
  · intro behavior maxRetries timeoutMs fuel attempt le acc e hb hn hstat hlt
    rw [fetchLoop_succ, hb]
    simp only [fetchStep]
    rw [fetchCatch_network_cont e attempt maxRetries timeoutMs hn (by simp [statusFalsy, hstat]) hlt]

/-- C4 witness: one aborted attempt continues with only the delay-0
notification (no sleep), while an HTTP-503 attempt and a network failure
both continue with a 1000 ms backoff notification and sleep. -/
theorem timeout_retry_skips_backoff_sleep_witness :
    fetchLoop behaviorC4t 3 60000 3 1 none []
      = fetchLoop behaviorC4t 3 60000 2 2 (some (timeoutError 60000))
          [.notify 408 1 0 true false]
    ∧ fetchLoop behaviorC4h 3 60000 3 1 none []
      = fetchLoop behaviorC4h 3 60000 2 2 (some (createHttpError none "busy" 503))
          [.notify 503 1 (calculateBackoff 1 RETRY_DELAY_MS) false false,
           .sleep (calculateBackoff 1 RETRY_DELAY_MS)]
    ∧ fetchLoop behaviorC4n 3 60000 3 1 none []
      = fetchLoop behaviorC4n 3 60000 2 2 (some ⟨"TypeError", "fetch failed", none, none⟩)
          [.notify 0 1 (calculateBackoff 1 RETRY_DELAY_MS) false true,
           .sleep (calculateBackoff 1 RETRY_DELAY_MS)] :=
  ⟨timeout_retry_skips_backoff_sleep.1 behaviorC4t 3 60000 2 1 none []
      ⟨"AbortError", "Aborted", none, none⟩ rfl rfl (by omega),
   timeout_retry_skips_backoff_sleep.2.1 behaviorC4h 3 60000 2 1 none []
      503 "busy" none rfl (by decide) (by omega),
   timeout_retry_skips_backoff_sleep.2.2 behaviorC4n 3 60000 2 1 none []
      ⟨"TypeError", "fetch failed", none, none⟩ rfl (by decide) rfl (by omega)⟩

/-- C5: the backoff delay is baseDelay times 2 to the power (attempt - 1)
with attempt 1-indexed; for the 1000 ms base the failed attempts 1..4 yield
1000/2000/4000/8000 ms, and a full run failing retryably on attempts 1-4
emits exactly those sleeps before attempts 2-5 and nothing before attempt 1
(the trace starts with the attempt-1 notification). -/
theorem backoff_sequence_trace :
    (∀ attempt baseDelay : Nat,
        calculateBackoff attempt baseDelay = baseDelay * 2 ^ (attempt - 1))
    ∧ calculateBackoff 1 1000 = 1000
    ∧ calculateBackoff 2 1000 = 2000
    ∧ calculateBackoff 3 1000 = 4000
    ∧ calculateBackoff 4 1000 = 8000
    ∧ fetchJson behaviorB5 5 60000
        = (.ok none,
           [.notify 500 1 1000 false false, .sleep 1000,
            .notify 500 2 2000 false false, .sleep 2000,
            .notify 500 3 4000 false false, .sleep 4000,
            .notify 500 4 8000 false false, .sleep 8000]) :=
  ⟨fun _ _ => rfl, rfl, rfl, rfl, rfl, rfl⟩

/-- C6: a response whose trimmed length is at least 100 characters is never
classified empty (even if it contains one of the phrases, such as looks
good), and an absent response or one whose trimmed length is below 20 is
always classified empty. -/
theorem isEmptyReview_length_thresholds :
    (∀ c : String, 100 ≤ (jsTrim c).length → isEmptyReview (some c) = false)
    ∧ isEmptyReview none = true
    ∧ (∀ c : String, (jsTrim c).length < 20 → isEmptyReview (some c) = true) := by
  refine ⟨?_, rfl, ?_⟩
  · intro c h
    have hne : c ≠ "" := by
      intro he
      subst he
      have h0 : (jsTrim "").length = 0 := rfl
      omega
    have hb : (c == "") = false := beq_eq_false_iff_ne.mpr hne
    have h20 : (decide ((jsTrim c).length < 20)) = false := decide_eq_false (by omega)
    have h100 : (decide ((jsTrim c).length < 100)) = false := decide_eq_false (by omega)
    simp [isEmptyReview, jsTruthyStr, hb, h20, h100]
  · intro c h
    have h20 : (decide ((jsTrim c).length < 20)) = true := decide_eq_true h
    simp [isEmptyReview, h20]

/-- C6 witness: a 100-character review containing looks good is kept, and a
2-character review is classified empty. -/
theorem isEmptyReview_length_thresholds_witness :
    isEmptyReview (some longReview) = false ∧ isEmptyReview (some "ok") = true :=
  ⟨isEmptyReview_length_thresholds.1 longReview (by decide),
   isEmptyReview_length_thresholds.2.2 "ok" (by decide)⟩

/-- C7: chunkString returns the text unchanged as a single element when it
is absent, empty, or no longer than the (positive) size; otherwise the
chunks are consecutive non-overlapping slices — every chunk except the last
has exactly size characters, the last has 1..size — and their concatenation
reconstructs the original string; the concrete example abcdefgh at size 3
gives abc/def/gh. -/
theorem chunkString_spec :
    (∀ size : Nat, chunkString none size = [none])
    ∧ (∀ (s : String) (size : Nat), s.length ≤ size → chunkString (some s) size = [some s])
    ∧ (∀ (s : String) (size : Nat), 1 ≤ size → size < s.length →
        chunkString (some s) size
            = (chunkCore size s.data.length s.data).map (fun c => some (String.mk c))
          ∧ (chunkCore size s.data.length s.data).flatten = s.data
          ∧ chunksShape size (chunkCore size s.data.length s.data))
    ∧ chunkString (some "abcdefgh") 3 = [some "abc", some "def", some "gh"] := by
  refine ⟨fun _ => rfl, ?_, ?_, by decide⟩
  · intro s size h
    have hd : (decide (s.length ≤ size)) = true := decide_eq_true h
    simp [chunkString, hd]
  · intro s size hs hlt
    have hne : s ≠ "" := by
      intro he
      subst he
      have h0 : ("" : String).length = 0 := rfl
      omega
    have hb : (s == "") = false := beq_eq_false_iff_ne.mpr hne
    have hdata : s.data ≠ [] := by
      intro h0
      apply hne
      cases s with
      | mk d =>
        have hd0 : d = [] := h0
        subst hd0
        rfl
    have hlen : s.length = s.data.length := rfl
    refine ⟨?_, ?_, ?_⟩
    · have hd : (decide (s.length ≤ size)) = false := decide_eq_false (by omega)
      simp [chunkString, jsTruthyStr, hb, hd]
    · exact chunkCore_flatten size hs s.data.length s.data (Nat.le_refl _)
    · exact chunkCore_shape size hs s.data.length s.data hdata (Nat.le_refl _)

/-- C7 witness: a short string is a single chunk, and the abcdefgh example
satisfies the slicing, reconstruction and shape properties at size 3. -/
theorem chunkString_spec_witness :
    chunkString (some "ab") 5 = [some "ab"]
    ∧ (chunkString (some "abcdefgh") 3
        = (chunkCore 3 ("abcdefgh" : String).data.length ("abcdefgh" : String).data).map
            (fun c => some (String.mk c))
      ∧ (chunkCore 3 ("abcdefgh" : String).data.length ("abcdefgh" : String).data).flatten
          = ("abcdefgh" : String).data
      ∧ chunksShape 3 (chunkCore 3 ("abcdefgh" : String).data.length ("abcdefgh" : String).data)) :=
  ⟨chunkString_spec.2.1 "ab" 5 (by decide),
   chunkString_spec.2.2.1 "abcdefgh" 3 (by decide) (by decide)⟩

/-- C8 counterexample: for the unparsable input abc with default 500 and
range [1, 200], clampInt returns the default 500 unclamped, which lies
outside [min, max] — refuting the claim that unparsable inputs always
produce an in-range output. -/
theorem clampInt_unparsable_default_escapes_range :
    clampInt (some "abc") 500 1 200 = 500
    ∧ ¬(clampInt (some "abc") 500 1 200 ≤ 200) := by
  exact ⟨by decide, by decide⟩

/-- C8 (amended): clampInt parses base-10 and returns the default on an
absent, empty or unparsable input, and otherwise the parsed value clamped
into [min, max]; PROVIDED the default itself lies within [min, max] (as at
every call site of the program), the output is always within [min, max],
and a parsed in-range value is returned exactly. -/
theorem clampInt_spec_amended :
    ∀ (val : Option String) (dflt lo hi : Int), lo ≤ dflt → dflt ≤ hi →
      (parseIntB10 (val.getD "") = none → clampInt val dflt lo hi = dflt)
      ∧ (∀ n : Int, parseIntB10 (val.getD "") = some n → lo ≤ n → n ≤ hi →
          clampInt val dflt lo hi = n)
      ∧ (lo ≤ clampInt val dflt lo hi ∧ clampInt val dflt lo hi ≤ hi) := by
  intro val dflt lo hi h1 h2
  refine ⟨?_, ?_, ?_⟩
  · intro h
    simp [clampInt, h]
  · intro n h hlo hhi
    simp only [clampInt, h]
    rw [max_def, min_def]
    split_ifs <;> omega
  · cases hp : parseIntB10 (val.getD "") with
    | none =>
      simp only [clampInt, hp]
      exact ⟨h1, h2⟩
    | some n =>
      simp only [clampInt, hp]
      rw [max_def, min_def]
      constructor <;> (split_ifs <;> omega)

/-- C8 witness: with range [1, 200] and default 25, the in-range input 12 is
returned exactly and the out-of-range input 300 is clamped into range. -/
theorem clampInt_spec_amended_witness :
    clampInt (some "12") 25 1 200 = 12
    ∧ (1 ≤ clampInt (some "300") 25 1 200 ∧ clampInt (some "300") 25 1 200 ≤ 200) :=
  ⟨(clampInt_spec_amended (some "12") 25 1 200 (by decide) (by decide)).2.1 12
      (by decide) (by decide) (by decide),
   (clampInt_spec_amended (some "300") 25 1 200 (by decide) (by decide)).2.2⟩

/-- C9: getFirstHunkPosition returns 1 for an absent patch or when no line
qualifies; when the first qualifying line (starting with + or - but not a
+-header or --header) sits at 0-based index k of the newline-split lines,
it returns k + 1 (the 1-based physical line index); in the concrete example
the first changed non-header line is the 4th physical line and the result
is 4. -/
theorem getFirstHunkPosition_spec :
    getFirstHunkPosition none = 1
    ∧ (∀ p : String, (∀ l ∈ jsSplitNewline p, isHunkLine l = false) →
        getFirstHunkPosition (some p) = 1)
    ∧ (∀ (p : String) (k : Nat) (hk : k < (jsSplitNewline p).length),
        isHunkLine ((jsSplitNewline p).get ⟨k, hk⟩) = true →
        (∀ j (hj : j < k), isHunkLine ((jsSplitNewline p).get ⟨j, Nat.lt_trans hj hk⟩) = false) →
        getFirstHunkPosition (some p) = k + 1)
    ∧ getFirstHunkPosition (some examplePatch) = 4 := by
  refine ⟨rfl, ?_, ?_, by decide⟩
  · intro p h
    by_cases hp : p = ""
    · subst hp
      rfl
    · have hb : (p == "") = false := beq_eq_false_iff_ne.mpr hp
      simp [getFirstHunkPosition, jsTruthyStr, hb]
      exact goLines_not_found _ h 0
  · intro p k hk hfound hleast
    by_cases hp : p = ""
    · subst hp
      have hlen : (jsSplitNewline "").length = 1 := rfl
      have hk0 : k = 0 := by omega
      subst hk0
      have hget : (jsSplitNewline "").get ⟨0, hk⟩ = "" := rfl
      rw [hget] at hfound
      exact absurd hfound (by decide)
    · have hb : (p == "") = false := beq_eq_false_iff_ne.mpr hp
      have hgo := goLines_found (jsSplitNewline p) k hk hfound hleast 0
      simp [getFirstHunkPosition, jsTruthyStr, hb, hgo]

/-- C9 witness: a patch with a header-only content yields 1, and the least
index characterization applied at the concrete example (first changed
non-header line at 0-based index 3) yields 4. -/
theorem getFirstHunkPosition_spec_witness :
    getFirstHunkPosition (some "+++ a\n--- b") = 1
    ∧ getFirstHunkPosition (some examplePatch) = 4 :=
  ⟨getFirstHunkPosition_spec.2.1 "+++ a\n--- b" (by decide),
   getFirstHunkPosition_spec.2.2.1 examplePatch 3 (by decide) (by decide)
     (by decide)⟩

/-- C10: with maxRetries below 1 the attempt loop body never runs and
fetchJson throws the uninitialized lastError — the undefined value (none),
which is neither a success value nor a classified error object — while with
maxRetries at least 1 the thrown value is never that undefined lastError. -/
theorem fetchJson_zero_retries_undefined :
    (∀ (behavior : Nat → Outcome) (maxRetries timeoutMs : Nat), maxRetries < 1 →
        fetchJson behavior maxRetries timeoutMs = (Except.error none, []))
    ∧ (∀ (behavior : Nat → Outcome) (maxRetries timeoutMs : Nat), 1 ≤ maxRetries →
        (fetchJson behavior maxRetries timeoutMs).1 ≠ Except.error none) := by
  constructor
  · intro behavior maxRetries timeoutMs h
    have h0 : maxRetries = 0 := by omega
    subst h0
    rfl
  · intro behavior maxRetries timeoutMs h
    exact fetchLoop_ne_error_none behavior maxRetries timeoutMs maxRetries 1 none []
      (Or.inl h)

/-- C10 witness: with 0 retries the result is the thrown undefined lastError
and an empty trace; with 3 retries the thrown value is a real error. -/
theorem fetchJson_zero_retries_undefined_witness :
    fetchJson behaviorC4h 0 60000 = (Except.error none, [])
    ∧ (fetchJson behaviorC4h 3 60000).1 ≠ Except.error none :=
  ⟨fetchJson_zero_retries_undefined.1 behaviorC4h 0 60000 (by omega),
   fetchJson_zero_retries_undefined.2 behaviorC4h 3 60000 (by omega)⟩
